import Mathlib

/-!
Shallow embedding of the `storage` module of hypercore-red
(src/src/storage/mod.rs) together with the pieces of the repository it
depends on that are not shipped under src/ (the `Node` record codec of
src/src/storage/node.rs and the 32-byte SLEEP store headers), which are
modelled from the specification where needed.

Rust `Result<_, Error>` values become `Outcome`; a call of the
`unimplemented!()` macro becomes the distinguished `Outcome.panic`.
The generic byte-store backend (`ras::Sync<T>` with `T: SyncMethods`) is a
`SyncOps σ` record of a write and a read operation over a store state `σ`;
the required memory backend (`random_access_memory`) is `ramOps` over a
`List UInt8`, a zero-filled sparse byte array.
-/

/-- Error taxonomy of the storage layer (spec §7).  The source uses the
opaque `failure::Error`; the constructors below separate the failure modes
the claims distinguish. -/
inductive StorageError where
  /-- Raised by `ensure!` ("Unexpected size data") in `put_data`. -/
  | sizeMismatch : StorageError
  /-- record of unexpected size/shape (node decode on a wrong-length buffer). -/
  | corrupt : StorageError
  /-- offset resolution needs an uncached node. -/
  | missingNode : StorageError
  /-- header magic/version unexpected on open. -/
  | formatMismatch : StorageError
  /-- failure propagated verbatim from the underlying byte store. -/
  | backend : StorageError
deriving DecidableEq, Repr

/-- Result of a storage operation: `ok`, a returned `Err`, or a Rust panic
(`unimplemented!()`). -/
inductive Outcome (α : Type) where
  | ok : α → Outcome α
  | err : StorageError → Outcome α
  | panic : Outcome α
deriving DecidableEq, Repr

/-- The four logical store kinds (`enum Store` in mod.rs). -/
inductive Store where
  | Tree : Store
  | Data : Store
  | Bitfield : Store
  | Signatures : Store
deriving DecidableEq, Repr

/-- The synchronous random-access byte-store capability
(`ras::Sync<T>`, `T: SyncMethods`): `write offset bytes` yields the new
store state, `read offset len` yields exactly `len` bytes. -/
structure SyncOps (σ : Type) where
  write : σ → Nat → List UInt8 → Outcome σ
  read : σ → Nat → Nat → Outcome (List UInt8)

/-- Memory-backend write (`random_access_memory`): zero-fill up to `offset`
when the store is shorter, then splice `data` in, extending as needed. -/
def ramWrite (store : List UInt8) (offset : Nat) (data : List UInt8) :
    List UInt8 :=
  (store ++ List.replicate (offset - store.length) 0).take offset
    ++ data ++ store.drop (offset + data.length)

/-- Memory-backend read: exactly `len` bytes at `offset`, failing when the
requested region extends past the end of the store. -/
def ramRead (store : List UInt8) (offset len : Nat) :
    Outcome (List UInt8) :=
  if offset + len ≤ store.length then .ok ((store.drop offset).take len)
  else .err .backend

/-- The required memory backend as a `SyncOps` instance. -/
def ramOps : SyncOps (List UInt8) where
  write := fun s offset data => .ok (ramWrite s offset data)
  read := fun s offset len => ramRead s offset len

/-- Inner loop of `flat_tree::full_roots`: starting from `factor`, double
`factor` while `factor * 2 <= tmp`.  Fuel-indexed so that it computes in the
kernel; `fuel = tmp` always suffices because `factor` at least doubles each
step, so results agree with the source loop. -/
def grow_factor : Nat → Nat → Nat → Nat
  | 0, _, factor => factor
  | fuel + 1, tmp, factor =>
    if factor * 2 ≤ tmp then grow_factor fuel tmp (factor * 2) else factor

/-- Outer loop of `flat_tree::full_roots`: while `tmp ≠ 0`, take the largest
power of two `factor ≤ tmp`, emit the root `offset + factor - 1`, advance
`offset` by `2 * factor` and shrink `tmp` by `factor`.  Fuel-indexed;
`fuel = tmp + 1` suffices because `tmp` shrinks by at least one per step. -/
def full_roots_loop : Nat → Nat → Nat → List Nat → List Nat
  | 0, _, _, nodes => nodes
  | fuel + 1, tmp, offset, nodes =>
    if tmp = 0 then nodes
    else
      let factor := grow_factor tmp tmp 1
      full_roots_loop fuel (tmp - factor) (offset + 2 * factor)
        (nodes ++ [offset + factor - 1])

/-- Source `flat_tree::full_roots(index)`: the flat indices, ascending, of the
minimal set of maximal complete subtrees covering the first `index / 2`
blocks.  The source asserts `index` is even; every call site in mod.rs
passes `2 * index`. -/
def full_roots (index : Nat) : List Nat :=
  full_roots_loop (index / 2 + 1) (index / 2) 0 []

/-- A Merkle tree node (`Node` of src/src/storage/node.rs, absent from
src/): flat tree position, 32-byte digest, cumulative leaf byte length. -/
structure Node where
  index : Nat
  hash : List UInt8
  size : Nat
deriving DecidableEq, Repr

/-- Big-endian encoding of a size into 8 bytes. -/
def encode_u64_be (n : Nat) : List UInt8 :=
  (List.range 8).map (fun i => UInt8.ofNat (n / 2 ^ (8 * (7 - i)) % 256))

/-- Big-endian decoding of a byte list into a natural number. -/
def decode_u64_be (bytes : List UInt8) : Nat :=
  bytes.foldl (fun acc b => acc * 256 + b.toNat) 0

/-- Modelled from the spec: `Node::to_vec` of the absent node.rs.  Spec
§4.2: a tree-node record is the 32-byte hash followed by the 8-byte
big-endian size integer, 40 bytes in all.  Total because serializing into a
byte vector cannot fail. -/
def node_to_vec (n : Node) : List UInt8 :=
  n.hash ++ encode_u64_be n.size

/-- Modelled from the spec: `Node::from_vec` of the absent node.rs.  Spec
§4.2/§7: decoding a buffer of the wrong size fails with `Corrupt`;
otherwise the first 32 bytes are the hash and the last 8 the size. -/
def node_from_vec (index : Nat) (buf : List UInt8) : Outcome Node :=
  if buf.length = 40 then
    .ok { index := index, hash := buf.take 32,
          size := decode_u64_be (buf.drop 32) }
  else .err .corrupt

/-- Modelled from the spec: the key pair held by the engine
(`super::crypto::KeyPair`, absent from src/).  Spec §3: fixed-size public
and secret key values; their contents never influence the storage layer. -/
structure KeyPair where
  public_key : List UInt8
  secret_key : List UInt8
deriving DecidableEq, Repr

/-- Modelled from the spec: the 32-byte Bitfield store header produced by
the external SLEEP header crate (spec §4.2/§6: magic identifying the store
kind, format version, entry size, algorithm identifier, zero padding to 32
bytes). -/
def create_bitfield : List UInt8 :=
  [5, 2, 87, 0] ++ [0] ++ [13, 0] ++ [0] ++ List.replicate 24 0

/-- Modelled from the spec: the 32-byte Signatures store header (magic,
version, entry size 64, algorithm identifier "Ed25519", zero padding). -/
def create_signatures : List UInt8 :=
  [5, 2, 87, 1] ++ [0] ++ [0, 64] ++ [7]
    ++ [69, 100, 50, 53, 53, 49, 57] ++ List.replicate 17 0

/-- Modelled from the spec: the 32-byte Tree store header (magic, version,
entry size 40, algorithm identifier "BLAKE2b", zero padding). -/
def create_tree : List UInt8 :=
  [5, 2, 87, 2] ++ [0] ++ [0, 40] ++ [7]
    ++ [66, 76, 65, 75, 69, 50, 98] ++ List.replicate 17 0

/-- Source `const HEADER_OFFSET: usize = 32`. -/
def HEADER_OFFSET : Nat := 32

/-- The storage engine (`struct Storage<T>`): the key pair plus one byte
store per logical kind. -/
structure Storage (σ : Type) where
  public_key : List UInt8
  secret_key : List UInt8
  tree : σ
  data : σ
  bitfield : σ
  signatures : σ
deriving DecidableEq, Repr

/-- Source `Storage::with_storage`: build the instance from the `create` callback,
then write the three store headers (bitfield, signatures, tree — in source
order) through the backend, aborting on the first failure (`?`). -/
def with_storage {σ : Type} (ops : SyncOps σ) (key_pair : KeyPair)
    (create : Store → σ) : Outcome (Storage σ) :=
  let inst : Storage σ :=
    { public_key := key_pair.public_key
      secret_key := key_pair.secret_key
      tree := create .Tree
      data := create .Data
      bitfield := create .Bitfield
      signatures := create .Signatures }
  match ops.write inst.bitfield 0 create_bitfield with
  | .err e => .err e
  | .panic => .panic
  | .ok b =>
    match ops.write inst.signatures 0 create_signatures with
    | .err e => .err e
    | .panic => .panic
    | .ok s =>
      match ops.write inst.tree 0 create_tree with
      | .err e => .err e
      | .panic => .panic
      | .ok t =>
        .ok { inst with bitfield := b, signatures := s, tree := t }

/-- Source `Storage::data_offset`: decompose `2 * index` into full roots; with no
roots return `Ok((0, 0))` (the source marks this `// TODO: fixme`);
otherwise the body is `unimplemented!()` — it never reads the cache and
performs no I/O.  The source takes the cache as a placeholder byte slice
and ignores it; it is typed here as the node list the commented-out
skeleton (`find_node(cached_nodes, root)`) intends. -/
def data_offset (index : Nat) (cached_nodes : List Node) :
    Outcome (Nat × Nat) :=
  let roots := full_roots (2 * index)
  let pending := roots.length
  if pending = 0 then .ok (0, 0)
  else .panic

/-- Source `Storage::put_data`: empty input returns `Ok(())` immediately;
otherwise resolve `(offset, size)` via `data_offset`, require
`size == data.len()` (`ensure!`, failing with "Unexpected size data"), and
only then write to the Data store.  The engine state is returned alongside
the outcome so that "store unchanged" is expressible. -/
def put_data {σ : Type} (ops : SyncOps σ) (st : Storage σ) (index : Nat)
    (data : List UInt8) (nodes : List Node) : Storage σ × Outcome Unit :=
  if data.isEmpty then (st, .ok ())
  else
    match data_offset index nodes with
    | .err e => (st, .err e)
    | .panic => (st, .panic)
    | .ok (offset, size) =>
      if size = data.length then
        match ops.write st.data offset data with
        | .err e => (st, .err e)
        | .panic => (st, .panic)
        | .ok d => ({ st with data := d }, .ok ())
      else (st, .err .sizeMismatch)

/-- Source `Storage::get_data`: `unimplemented!()`. -/
def get_data {σ : Type} (st : Storage σ) : Outcome Unit :=
  Outcome.panic

/-- Source `Storage::next_signature`: `unimplemented!()`. -/
def next_signature {σ : Type} (st : Storage σ) : Outcome Unit :=
  Outcome.panic

/-- Source `Storage::get_signature`: `unimplemented!()`. -/
def get_signature {σ : Type} (st : Storage σ) : Outcome Unit :=
  Outcome.panic

/-- Source `Storage::put_signature`: write the bytes at
`HEADER_OFFSET + 64 * index` of the Signatures store; no validation of the
input length. -/
def put_signature {σ : Type} (ops : SyncOps σ) (st : Storage σ)
    (index : Nat) (signature : List UInt8) : Storage σ × Outcome Unit :=
  match ops.write st.signatures (HEADER_OFFSET + 64 * index) signature with
  | .err e => (st, .err e)
  | .panic => (st, .panic)
  | .ok s => ({ st with signatures := s }, .ok ())

/-- Source `Storage::get_node`: read the 40 bytes at `HEADER_OFFSET + 40 * index`
of the Tree store and decode them. -/
def get_node {σ : Type} (ops : SyncOps σ) (st : Storage σ) (index : Nat) :
    Outcome Node :=
  match ops.read st.tree (HEADER_OFFSET + 40 * index) 40 with
  | .err e => .err e
  | .panic => .panic
  | .ok buf => node_from_vec index buf

/-- Source `Storage::put_node`: encode the node and write the buffer at
`HEADER_OFFSET + 40 * index` of the Tree store. -/
def put_node {σ : Type} (ops : SyncOps σ) (st : Storage σ) (index : Nat)
    (node : Node) : Storage σ × Outcome Unit :=
  let buf := node_to_vec node
  match ops.write st.tree (HEADER_OFFSET + 40 * index) buf with
  | .err e => (st, .err e)
  | .panic => (st, .panic)
  | .ok t => ({ st with tree := t }, .ok ())

/-- Source `Storage::put_bitfield`: raw write at `HEADER_OFFSET + offset` of the
Bitfield store. -/
def put_bitfield {σ : Type} (ops : SyncOps σ) (st : Storage σ)
    (offset : Nat) (data : List UInt8) : Storage σ × Outcome Unit :=
  match ops.write st.bitfield (HEADER_OFFSET + offset) data with
  | .err e => (st, .err e)
  | .panic => (st, .panic)
  | .ok b => ({ st with bitfield := b }, .ok ())

/-- Source `Storage::open_key`: `unimplemented!()`. -/
def open_key {σ : Type} (st : Storage σ) : Outcome Unit :=
  Outcome.panic

/-- Source `find_node`: linear scan of a node list for a given flat index. -/
def find_node : List Node → Nat → Option Node
  | [], _ => none
  | node :: rest, index =>
    if node.index = index then some node else find_node rest index

-- Sanity checks of the flat-tree decomposition against spec §8
-- (`fullRoots(n)` there is `full_roots (2 * n)` here).
example : full_roots 0 = [] := by decide
example : full_roots 2 = [0] := by decide
example : full_roots 4 = [1] := by decide
example : full_roots 6 = [1, 4] := by decide

/-! ### Helper lemmas about the memory backend and the codec -/

lemma length_ramWrite (s : List UInt8) (off : Nat) (d : List UInt8) :
    (ramWrite s off d).length
      = off + d.length + (s.length - (off + d.length)) := by
  simp only [ramWrite, List.length_append, List.length_take,
    List.length_replicate, List.length_drop]
  omega

lemma ramWrite_split (s : List UInt8) (off : Nat) (d : List UInt8) :
    ramWrite s off d
      = (s ++ List.replicate (off - s.length) 0).take off
          ++ (d ++ s.drop (off + d.length)) := by
  simp [ramWrite]

/-- Reading back any sub-range of a just-written region returns the
corresponding slice of the written bytes. -/
lemma ramRead_ramWrite_sub (s : List UInt8) (off : Nat) (d : List UInt8)
    (k m : Nat) (h : k + m ≤ d.length) :
    ramRead (ramWrite s off d) (off + k) m = .ok ((d.drop k).take m) := by
  have hA : ((s ++ List.replicate (off - s.length) 0).take off).length
      = off := by
    simp only [List.length_take, List.length_append, List.length_replicate]
    omega
  rw [ramRead, if_pos]
  · congr 1
    rw [ramWrite_split]
    rw [show off + k
        = ((s ++ List.replicate (off - s.length) 0).take off).length + k
      from by rw [hA]]
    rw [← List.drop_drop, List.drop_left]
    rw [List.drop_append_of_le_length (by omega)]
    rw [List.take_append_of_le_length (by simp only [List.length_drop]; omega)]
  · rw [length_ramWrite]
    omega

/-- Reading back the whole just-written region returns the written bytes. -/
lemma ramRead_ramWrite (s : List UInt8) (off : Nat) (d : List UInt8) :
    ramRead (ramWrite s off d) off d.length = .ok d := by
  have h := ramRead_ramWrite_sub s off d 0 d.length (by omega)
  simpa using h

lemma decode_encode_u64 (n : Nat) (h : n < 2 ^ 64) :
    decode_u64_be (encode_u64_be n) = n := by
  have e : List.range 8 = [0, 1, 2, 3, 4, 5, 6, 7] := rfl
  have hlt : ∀ m : Nat, (UInt8.ofNat (m % 256)).toNat = m % 256 :=
    fun m => UInt8.toNat_ofNat_of_lt (Nat.mod_lt _ (by decide))
  simp only [encode_u64_be, e, List.map_cons, List.map_nil, decode_u64_be,
    List.foldl_cons, List.foldl_nil, hlt]
  norm_num
  omega

lemma length_node_to_vec (n : Node) (h : n.hash.length = 32) :
    (node_to_vec n).length = 40 := by
  simp [node_to_vec, encode_u64_be, h]

/-- Through the memory backend, `get_node` decodes exactly the 40 bytes at
`HEADER_OFFSET + 40 * i` of the Tree store. -/
lemma get_node_eq (st : Storage (List UInt8)) (i : Nat) (buf : List UInt8)
    (h : ramRead st.tree (HEADER_OFFSET + 40 * i) 40 = .ok buf) :
    get_node ramOps st i = node_from_vec i buf := by
  unfold get_node
  rw [show ramOps.read st.tree (HEADER_OFFSET + 40 * i) 40 = .ok buf from h]

/-- Decoding an encoded valid node recovers it (with the index the caller
asks for). -/
lemma node_from_vec_node_to_vec (i : Nat) (n : Node)
    (h32 : n.hash.length = 32) (h64 : n.size < 2 ^ 64) (hidx : n.index = i) :
    node_from_vec i (node_to_vec n) = .ok n := by
  rw [node_from_vec, if_pos (length_node_to_vec n h32)]
  rw [node_to_vec, List.take_left' h32, List.drop_left' h32,
    decode_encode_u64 n.size h64]
  rw [← hidx]

/-! ### Claim theorems -/

/-- C1: the spec scenario claims the offset resolver at block index 0 with
the leaf node of size 10 cached returns offset 0 and length 10.  The code
returns offset 0 and length 0: the zero-roots branch (marked
`// TODO: fixme` in the source) ignores the cached leaf size entirely. -/
theorem C1_data_offset_block_zero :
    data_offset 0 [{ index := 0, hash := List.replicate 32 0, size := 10 }]
        = .ok (0, 0)
      ∧ data_offset 0 [{ index := 0, hash := List.replicate 32 0, size := 10 }]
        ≠ .ok (0, 10) := by
  exact ⟨by decide, by decide⟩

/-- C3: for a block index whose flat-tree decomposition has a full root
(index 1: `full_roots 2 = [0]`), the code hits `unimplemented!()` and
panics no matter whether the required node is in the cache — it does not
return the `MissingNode` error the claim describes. -/
theorem C3_data_offset_roots_panic :
    data_offset 1 [] = Outcome.panic
      ∧ data_offset 1 [{ index := 0, hash := List.replicate 32 0, size := 10 }]
          = Outcome.panic
      ∧ data_offset 1 [] ≠ .err .missingNode := by
  exact ⟨by decide, by decide, by decide⟩

/-- C4: whenever the offset resolver succeeds with a length different from
that of the non-empty input, `put_data` fails with the size-mismatch error
and the engine — in particular the Data store — is returned unchanged: no
write is issued on any backend. -/
theorem C4_put_data_size_mismatch {σ : Type} (ops : SyncOps σ)
    (st : Storage σ) (index : Nat) (data : List UInt8) (nodes : List Node)
    (off size : Nat) (hne : data ≠ [])
    (hres : data_offset index nodes = .ok (off, size))
    (hsz : size ≠ data.length) :
    put_data ops st index data nodes = (st, .err .sizeMismatch) := by
  have hne' : data.isEmpty = false := by
    cases data with
    | nil => exact absurd rfl hne
    | cons a l => rfl
  unfold put_data
  rw [hne', hres]
  simp [hsz]

/-- C4 witness: at block index 0, where the resolver yields length 0, a
one-byte write is rejected with the store untouched. -/
theorem C4_witness :
    put_data ramOps ⟨[], [], [], [], [], []⟩ 0 [1] []
      = (⟨[], [], [], [], [], []⟩, .err .sizeMismatch) :=
  C4_put_data_size_mismatch ramOps ⟨[], [], [], [], [], []⟩ 0 [1] [] 0 0
    (by decide) (by decide) (by decide)

/-- C8: `put_data` with an empty byte list returns success immediately
with the engine unchanged, for any backend, index and node cache — zero
store writes, and the offset resolver is never consulted (the theorem
holds even at indices where the resolver panics). -/
theorem C8_put_data_empty {σ : Type} (ops : SyncOps σ) (st : Storage σ)
    (index : Nat) (nodes : List Node) :
    put_data ops st index [] nodes = (st, .ok ()) := by
  rfl

/-- C9: the four stubbed operations — `get_data`, `next_signature`,
`get_signature`, `open_key` — panic (`unimplemented!()`) on every engine
state instead of returning a value or an error. -/
theorem C9_stubs_panic {σ : Type} (st : Storage σ) :
    get_data st = Outcome.panic
      ∧ next_signature st = Outcome.panic
      ∧ get_signature st = Outcome.panic
      ∧ open_key st = Outcome.panic :=
  ⟨rfl, rfl, rfl, rfl⟩

/-- C5: writing a valid node (32-byte hash, size below 2^64) at its own
index and immediately reading that index back through the memory backend
succeeds and returns an equal node — the codec round-trips through the
store. -/
theorem C5_get_node_after_put_node (st : Storage (List UInt8)) (i : Nat)
    (n : Node) (h32 : n.hash.length = 32) (h64 : n.size < 2 ^ 64)
    (hidx : n.index = i) :
    (put_node ramOps st i n).2 = .ok ()
      ∧ get_node ramOps (put_node ramOps st i n).1 i = .ok n := by
  refine ⟨rfl, ?_⟩
  have hread : ramRead
      (ramWrite st.tree (HEADER_OFFSET + 40 * i) (node_to_vec n))
      (HEADER_OFFSET + 40 * i) 40 = .ok (node_to_vec n) := by
    have h := ramRead_ramWrite st.tree (HEADER_OFFSET + 40 * i)
      (node_to_vec n)
    rw [length_node_to_vec n h32] at h
    exact h
  rw [get_node_eq (put_node ramOps st i n).1 i (node_to_vec n) hread]
  exact node_from_vec_node_to_vec i n h32 h64 hidx

/-- C5 witness: a concrete node round-trips through a fresh memory-backed
engine at index 1. -/
theorem C5_witness :
    (put_node ramOps ⟨[], [], [], [], [], []⟩ 1
        { index := 1, hash := List.replicate 32 7, size := 10 }).2 = .ok ()
      ∧ get_node ramOps
          (put_node ramOps ⟨[], [], [], [], [], []⟩ 1
            { index := 1, hash := List.replicate 32 7, size := 10 }).1 1
        = .ok { index := 1, hash := List.replicate 32 7, size := 10 } :=
  C5_get_node_after_put_node ⟨[], [], [], [], [], []⟩ 1
    { index := 1, hash := List.replicate 32 7, size := 10 }
    (by decide) (by norm_num) rfl

/-- C7: record addressing follows the fixed layout with `HEADER_OFFSET`
32: `put_node` writes the encoded 40-byte record at `32 + 40 * i` of the
Tree store and `get_node` decodes exactly the 40 bytes read there;
`put_signature` writes at `32 + 64 * i` of the Signatures store; and
`put_bitfield` writes the raw bytes at `32 + offset` of the Bitfield
store. -/
theorem C7_record_addressing (st : Storage (List UInt8)) (i off : Nat)
    (n : Node) (sig bytes buf : List UInt8) (h32 : n.hash.length = 32)
    (hread : ramRead st.tree (32 + 40 * i) 40 = .ok buf) :
    HEADER_OFFSET = 32
      ∧ (node_to_vec n).length = 40
      ∧ put_node ramOps st i n
          = ({ st with tree := ramWrite st.tree (32 + 40 * i) (node_to_vec n) }, .ok ())
      ∧ get_node ramOps st i = node_from_vec i buf
      ∧ put_signature ramOps st i sig
          = ({ st with signatures := ramWrite st.signatures (32 + 64 * i) sig }, .ok ())
      ∧ put_bitfield ramOps st off bytes
          = ({ st with bitfield := ramWrite st.bitfield (32 + off) bytes }, .ok ()) := by
  refine ⟨rfl, length_node_to_vec n h32, rfl, ?_, rfl, rfl⟩
  exact get_node_eq st i buf hread

/-- C7 witness: the layout facts at index 0 of a concrete engine whose
Tree store holds 72 zero bytes. -/
theorem C7_witness :
    HEADER_OFFSET = 32
      ∧ (node_to_vec { index := 0, hash := List.replicate 32 9, size := 10 }).length = 40
      ∧ get_node ramOps ⟨[], [], List.replicate 72 0, [], [], []⟩ 0
          = node_from_vec 0 (List.replicate 40 0) := by
  have h := C7_record_addressing ⟨[], [], List.replicate 72 0, [], [], []⟩
    0 0 { index := 0, hash := List.replicate 32 9, size := 10 } [] []
    (List.replicate 40 0) (by decide) (by decide)
  exact ⟨h.1, h.2.1, h.2.2.2.1⟩

/-- C10: `put_signature` never validates its input's length — for any index
and any byte list it reports success and splices exactly those bytes in at
`32 + 64 * i` of the Signatures store; when more than 64 bytes are given,
the surplus from position 64 onward occupies the start of record `i + 1`'s
byte range. -/
theorem C10_put_signature_unchecked (st : Storage (List UInt8)) (i : Nat)
    (sig : List UInt8) :
    (put_signature ramOps st i sig).2 = .ok ()
      ∧ (put_signature ramOps st i sig).1.signatures
          = ramWrite st.signatures (32 + 64 * i) sig
      ∧ ramRead (put_signature ramOps st i sig).1.signatures (32 + 64 * i)
          sig.length = .ok sig
      ∧ (64 < sig.length →
          ramRead (put_signature ramOps st i sig).1.signatures
              (32 + 64 * (i + 1)) (sig.length - 64)
            = .ok (sig.drop 64)) := by
  refine ⟨rfl, rfl, ?_, ?_⟩
  · exact ramRead_ramWrite st.signatures (32 + 64 * i) sig
  · intro hlong
    have h := ramRead_ramWrite_sub st.signatures (32 + 64 * i) sig 64
      (sig.length - 64) (by omega)
    rw [show (32 + 64 * i) + 64 = 32 + 64 * (i + 1) from by ring] at h
    rw [show (sig.drop 64).take (sig.length - 64) = sig.drop 64 from by
      rw [show sig.length - 64 = (sig.drop 64).length from by
        simp only [List.length_drop]]
      exact List.take_length _] at h
    exact h

/-- C10 witness: a 65-byte signature at index 0 is accepted whole, and its
65th byte lands at the first byte of record 1's range. -/
theorem C10_witness :
    (put_signature ramOps ⟨[], [], [], [], [], []⟩ 0
        (List.replicate 65 7)).2 = .ok ()
      ∧ ramRead (put_signature ramOps ⟨[], [], [], [], [], []⟩ 0
            (List.replicate 65 7)).1.signatures (32 + 64 * (0 + 1)) 1
          = .ok [7] := by
  have h := C10_put_signature_unchecked ⟨[], [], [], [], [], []⟩ 0
    (List.replicate 65 7)
  exact ⟨h.1, h.2.2.2 (by decide)⟩

/-- C2 counterexample: opening against stores whose 32-byte headers are
corrupted (every byte 255, so neither magic nor version matches) does not
fail with `FormatMismatch` — it succeeds, silently overwriting the bad
headers with fresh ones. -/
theorem C2_counterexample :
    with_storage ramOps { public_key := [], secret_key := [] }
        (fun _ => List.replicate 32 255)
      = .ok { public_key := [], secret_key := [], tree := create_tree, data := List.replicate 32 255, bitfield := create_bitfield, signatures := create_signatures }
      ∧ with_storage ramOps { public_key := [], secret_key := [] }
          (fun _ => List.replicate 32 255)
        ≠ .err .formatMismatch := by
  exact ⟨by decide, by decide⟩

/-- C2 (amended): construction performs no header validation at all — for
every prior store contents it succeeds, unconditionally (re)writing the
32-byte headers of the Bitfield, Signatures and Tree stores, whose first
32 bytes afterwards are exactly the fresh header bytes; the Data store is
returned as the factory made it.  In particular opening twice rewrites the
headers each time rather than re-validating them. -/
theorem C2_open_rewrites_headers (kp : KeyPair)
    (create : Store → List UInt8) :
    with_storage ramOps kp create
      = .ok { public_key := kp.public_key, secret_key := kp.secret_key, tree := ramWrite (create .Tree) 0 create_tree, data := create .Data, bitfield := ramWrite (create .Bitfield) 0 create_bitfield, signatures := ramWrite (create .Signatures) 0 create_signatures }
      ∧ ramRead (ramWrite (create .Bitfield) 0 create_bitfield) 0 32
          = .ok create_bitfield
      ∧ ramRead (ramWrite (create .Signatures) 0 create_signatures) 0 32
          = .ok create_signatures
      ∧ ramRead (ramWrite (create .Tree) 0 create_tree) 0 32
          = .ok create_tree := by
  refine ⟨rfl, ?_, ?_, ?_⟩
  · have h := ramRead_ramWrite (create .Bitfield) 0 create_bitfield
    rwa [show create_bitfield.length = 32 from by decide] at h
  · have h := ramRead_ramWrite (create .Signatures) 0 create_signatures
    rwa [show create_signatures.length = 32 from by decide] at h
  · have h := ramRead_ramWrite (create .Tree) 0 create_tree
    rwa [show create_tree.length = 32 from by decide] at h

/-- C6: construction writes the 32-byte headers at offset 0 of exactly the
three non-Data stores — Bitfield, Signatures, Tree, in source order — and
leaves the Data store exactly as the factory created it; if any of the
three header writes fails, construction aborts with that error and yields
no instance.  Stated over an arbitrary backend. -/
theorem C6_with_storage_headers {σ : Type} (ops : SyncOps σ)
    (kp : KeyPair) (create : Store → σ) :
    create_bitfield.length = 32
      ∧ create_signatures.length = 32
      ∧ create_tree.length = 32
      ∧ (∀ inst, with_storage ops kp create = .ok inst →
          ops.write (create .Bitfield) 0 create_bitfield = .ok inst.bitfield
            ∧ ops.write (create .Signatures) 0 create_signatures = .ok inst.signatures
            ∧ ops.write (create .Tree) 0 create_tree = .ok inst.tree
            ∧ inst.data = create .Data
            ∧ inst.public_key = kp.public_key
            ∧ inst.secret_key = kp.secret_key)
      ∧ (∀ e, ops.write (create .Bitfield) 0 create_bitfield = .err e →
          with_storage ops kp create = .err e)
      ∧ (∀ b e, ops.write (create .Bitfield) 0 create_bitfield = .ok b →
          ops.write (create .Signatures) 0 create_signatures = .err e →
          with_storage ops kp create = .err e)
      ∧ (∀ b s e, ops.write (create .Bitfield) 0 create_bitfield = .ok b →
          ops.write (create .Signatures) 0 create_signatures = .ok s →
          ops.write (create .Tree) 0 create_tree = .err e →
          with_storage ops kp create = .err e) := by
  refine ⟨by decide, by decide, by decide, ?_, ?_, ?_, ?_⟩
  · intro inst hok
    simp only [with_storage] at hok
    cases hb : ops.write (create .Bitfield) 0 create_bitfield with
    | err e => rw [hb] at hok; cases hok
    | panic => rw [hb] at hok; cases hok
    | ok b =>
      rw [hb] at hok
      cases hs : ops.write (create .Signatures) 0 create_signatures with
      | err e => rw [hs] at hok; cases hok
      | panic => rw [hs] at hok; cases hok
      | ok s =>
        rw [hs] at hok
        cases ht : ops.write (create .Tree) 0 create_tree with
        | err e => rw [ht] at hok; cases hok
        | panic => rw [ht] at hok; cases hok
        | ok t =>
          rw [ht] at hok
          cases hok
          exact ⟨rfl, rfl, rfl, rfl, rfl, rfl⟩
  · intro e hb
    simp only [with_storage]
    rw [hb]
  · intro b e hb hs
    simp only [with_storage]
    rw [hb, hs]
  · intro b s e hb hs ht
    simp only [with_storage]
    rw [hb, hs, ht]

/-- C6 witness: over the memory backend with empty initial stores,
construction succeeds with the headers written to the Bitfield and Tree
stores and the Data store exactly as created ([], untouched). -/
theorem C6_witness :
    create_bitfield.length = 32
      ∧ ramOps.write ([] : List UInt8) 0 create_bitfield
          = .ok create_bitfield
      ∧ ramOps.write ([] : List UInt8) 0 create_tree = .ok create_tree
      ∧ (⟨[], [], create_tree, [], create_bitfield, create_signatures⟩ : Storage (List UInt8)).data = [] := by
  have h0 := C6_with_storage_headers ramOps
    { public_key := [], secret_key := [] } (fun _ => ([] : List UInt8))
  have h := h0.2.2.2.1
    ⟨[], [], create_tree, [], create_bitfield, create_signatures⟩
    (by decide)
  exact ⟨h0.1, h.1, h.2.2.1, h.2.2.2.1⟩
